import Mathlib

/-!
Verification of `fpart` (fpart.c): input-line parsing, option handling,
path normalization, the top-level control flow of `main`, and the fixed-N
dispatch phase.  C code is shallowly embedded: strings become `List Char`,
`long long` values become unbounded `Int` (no overflow is exercised by the
theorems below), and the filesystem crawl is a function parameter.
-/

namespace Fpart

/-- C `isspace(3)` for the default locale: the whitespace skipped by
`sscanf`/`strtoll` conversions. -/
def isCSpace (c : Char) : Bool :=
  c = ' ' || c = '\t' || c = '\n' || c = '\x0b' || c = '\x0c' || c = '\r'

/-- Consume a maximal run of decimal digits, accumulating their value
(base 10, most significant first), and return the value together with the
unconsumed remainder. -/
def scanDigitsAux (acc : Nat) : List Char → Nat × List Char
  | c :: rest =>
    if c.isDigit then scanDigitsAux (acc * 10 + (c.toNat - 48)) rest
    else (acc, c :: rest)
  | [] => (acc, [])

/-- A digit run that must be non-empty: `none` when the first character is
not a decimal digit (conversion failure). -/
def scan_unsigned (l : List Char) : Option (Nat × List Char) :=
  match l with
  | c :: _ => if c.isDigit then some (scanDigitsAux 0 l) else none
  | [] => none

/-- The common integer conversion of `sscanf("%lld", ...)` and
`strtoll(nptr, &endptr, 10)`: skip whitespace, then an optional sign and a
non-empty digit run.  Returns the value and the unconsumed remainder
(`endptr`); `none` models a failed conversion (`endptr == nptr`).
Values are unbounded `Int`; `long long` overflow is not modelled. -/
def scan_lld (l : List Char) : Option (Int × List Char) :=
  match l.dropWhile isCSpace with
  | '-' :: rest => (scan_unsigned rest).map (fun r => (-(r.1 : Int), r.2))
  | '+' :: rest => (scan_unsigned rest).map (fun r => ((r.1 : Int), r.2))
  | l1 => (scan_unsigned l1).map (fun r => ((r.1 : Int), r.2))

/-- `sscanf(argument, "%lld %[^\n]", &input_size, input_path)` from
`handle_argument` (fpart.c:162), on a line whose `\n` has already been
stripped by `main` (fpart.c:540).  The format-string blank skips
whitespace after the number, and `%[^\n]` matches a maximal non-empty run
of non-newline characters.  `some (size, path)` models a return value of
2; `none` models any other return value (a malformed line). -/
def sscanf_lld_path (l : List Char) : Option (Int × List Char) :=
  match scan_lld l with
  | none => none
  | some (v, r) =>
    let p := (r.dropWhile isCSpace).takeWhile (fun c => c ≠ '\n')
    if p = [] then none else some (v, p)

/-- One file entry: a path plus its raw size (`fsize_t`, i.e. signed
`long long`, hence `Int`). -/
structure FileEntry where
  path : List Char
  size : Int
deriving DecidableEq

/-- Modelled from the spec: `handle_file_entry` (file_entry.c, not under
src/) appends one entry carrying the given path and size to the entry
collection ("an ordered sequence of entries", "entries are appended in
crawl order").  Allocation failure is not modelled. -/
def handle_file_entry (entries : List FileEntry) (p : List Char) (sz : Int) :
    List FileEntry :=
  entries ++ [{ path := p, size := sz }]

/-- The arbitrary-values branch of `handle_argument` (fpart.c:152-176):
parse the line with `sscanf("%lld %[^\n]")`; on success add the entry and
bump `totalfiles`; otherwise report the line to stderr and skip it.
Result: (return code, updated totalfiles, updated entries). -/
def handle_argument_arb (line : List Char) (totalfiles : Nat)
    (entries : List FileEntry) : Int × Nat × List FileEntry :=
  match sscanf_lld_path line with
  | some (sz, p) => (0, totalfiles + 1, handle_file_entry entries p sz)
  | none => (0, totalfiles, entries)

/-- The `fgets` loop of `main` (fpart.c:538-551) restricted to
arbitrary-values mode: each line goes through `handle_argument`; a
non-zero return code aborts the run (fpart.c:543-547). -/
def process_lines_arb : List (List Char) → Nat → List FileEntry →
    Int × Nat × List FileEntry
  | [], t, es => (0, t, es)
  | l :: rest, t, es =>
    let r := handle_argument_arb l t es
    if r.1 = 0 then process_lines_arb rest r.2.1 r.2.2 else r

/-- The trailing-slash loop of `handle_argument` (fpart.c:190-195), seen
from the end of the string: while the string has length > 1 and its last
two characters are both '/', drop the last character.  This operates on
the reversed character list. -/
def chopSlashes : List Char → List Char
  | a :: b :: rest =>
    if a = '/' ∧ b = '/' then chopSlashes (b :: rest) else a :: b :: rest
  | l => l

/-- Path normalization performed by `handle_argument` before crawling
(fpart.c:188-195): remove multiple ending slashes. -/
def remove_ending_slashes (l : List Char) : List Char :=
  (chopSlashes l.reverse).reverse

/-- The path branch of `handle_argument` (fpart.c:177-213): copy the
argument, remove multiple ending slashes, and crawl the result iff it is
non-empty.  The crawl (`init_file_entries`, file_entry.c, not under src/)
is a parameter: `some (n, new)` models success adding `n` entries, `none`
models a failure, after which `handle_argument` returns 1
(fpart.c:203-208). -/
def handle_argument_path (crawl : List Char → Option (Nat × List FileEntry))
    (arg : List Char) (totalfiles : Nat) (entries : List FileEntry) :
    Int × Nat × List FileEntry :=
  let p := remove_ending_slashes arg
  if p = [] then (0, totalfiles, entries)
  else
    match crawl p with
    | some (n, new) => (0, totalfiles + n, entries ++ new)
    | none => (1, totalfiles, entries)

/-- The option state read by the consistency checks and input-source
selection of `main`.  The `DFLT_OPT_*` sentinels live in options.h (not
under src/); since getopt parsing only stores values that the sentinel
cannot equal (`-n`/`-f`/`-s` refuse values <= 0), a field equal to its
default is modelled as `none` and a field set on the command line as
`some v`. -/
structure ProgramOptions where
  num_parts : Option Nat
  max_entries : Option Nat
  max_size : Option Int
  live_mode : Bool
  pre_part_hook : Option (List Char)
  post_part_hook : Option (List Char)
  in_filename : Option (List Char)
deriving DecidableEq

/-- The three consistency checks of `main` (fpart.c:461-490), each of
which prints usage and exits 1: (a) none of `-n`, `-f`, `-s` given;
(b) `-n` given together with `-f`, `-s` or `-L`; (c) a hook given
without `-L`. -/
def options_consistency_reject (o : ProgramOptions) : Bool :=
  (o.num_parts.isNone && o.max_entries.isNone && o.max_size.isNone) ||
  (o.num_parts.isSome &&
    (o.max_entries.isSome || o.max_size.isSome || o.live_mode)) ||
  (!o.live_mode && (o.pre_part_hook.isSome || o.post_part_hook.isSome))

/-- How many of the three primary selectors `-n`, `-f`, `-s` were
provided. -/
def selectors_provided (o : ProgramOptions) : Nat :=
  (if o.num_parts.isSome then 1 else 0) +
  (if o.max_entries.isSome then 1 else 0) +
  (if o.max_size.isSome then 1 else 0)

/-- fpart.c:492-503: when no input file was set and no positional
argument remains, force the input filename to "-" (stdin). -/
def force_stdin_default (in_filename : Option (List Char)) (argc : Nat) :
    Option (List Char) :=
  if in_filename = none ∧ argc = 0 then some ['-'] else in_filename

/-- Modelled from the spec: `abs_path` (utils.c, not under src/) resolves
its argument to an absolute path; per spec §6 `-i PATH` with PATH = "-"
selects stdin, so "-" must be preserved verbatim.  The resolution of
other paths is irrelevant to the claims and is modelled as the identity;
its failure (a NULL return) is not modelled. -/
def abs_path (p : List Char) : Option (List Char) :=
  some p

/-- The `-i` case of getopt handling (fpart.c:291-307): an empty argument
is ignored, otherwise the (possibly previously set) input filename is
replaced by `abs_path(optarg)`. -/
def apply_opt_i (current : Option (List Char)) (optarg : List Char) :
    Option (List Char) :=
  if optarg = [] then current else abs_path optarg

/-- Where `main` reads input lines from (fpart.c:516-532): nowhere when
no input filename is set, stdin when it is exactly "-", else the named
file. -/
inductive InputSource where
  | noInput
  | stdin
  | fromFile (name : List Char)
deriving DecidableEq

def select_input_source (in_filename : Option (List Char)) : InputSource :=
  match in_filename with
  | none => InputSource.noInput
  | some f => if f = ['-'] then InputSource.stdin else InputSource.fromFile f

/-- Outcome of a run of `main` after getopt parsing.
`usageExit1`: usage printed, exit code 1, before any input is read.
`fatalExit1`: a fatal error during ingestion, exit code 1.
`successNoDispatch r`: "r file(s) found." printed and exit code 0 with no
dispatch and no manifest emission (fpart.c:584-591).
`dispatched t`: the run proceeds to the sorting/dispatch/emission phases
with `t` entries. -/
inductive RunOutcome where
  | usageExit1
  | fatalExit1
  | successNoDispatch (reported : Nat)
  | dispatched (totalfiles : Nat)
deriving DecidableEq

/-- The control flow of `main` from the consistency checks to the
dispatch decision (fpart.c:461-591).  Ingestion — the input-file line
loop and the positional-argument loop (fpart.c:505-575), which touch the
filesystem — is a parameter receiving the resolved input filename and the
positional arguments; `some t` models completion with `t` entries found
and `none` a fatal ingestion error. -/
def main_model
    (ingest : Option (List Char) → List (List Char) → Option Nat)
    (o : ProgramOptions) (args : List (List Char)) : RunOutcome :=
  if options_consistency_reject o then RunOutcome.usageExit1
  else
    match ingest (force_stdin_default o.in_filename args.length) args with
    | none => RunOutcome.fatalExit1
    | some totalfiles =>
      if totalfiles = 0 ∨ o.live_mode then
        RunOutcome.successNoDispatch totalfiles
      else RunOutcome.dispatched totalfiles

/-- The inline `-p` parsing of `main` (fpart.c:408-423): `strtoll` base
10; reject when no characters were converted, when the argument was only
partially converted, or when the value is <= 0.  `some v` models
`options.preload_size = v`; `none` models usage plus exit code 1. -/
def parse_opt_p (optarg : List Char) : Option Int :=
  match scan_lld optarg with
  | none => none
  | some (v, rest) => if rest ≠ [] ∨ v ≤ 0 then none else some v

/-- The inline `-q` parsing of `main` (fpart.c:424-439): same checks as
`-p`; `some v` models `options.overload_size = v`. -/
def parse_opt_q (optarg : List Char) : Option Int :=
  match scan_lld optarg with
  | none => none
  | some (v, rest) => if rest ≠ [] ∨ v ≤ 0 then none else some v

/-- One partition: accumulated size (`current_size`, including the
preload) and entry count. -/
structure Partition where
  size : Int
  count : Nat
deriving DecidableEq

/-- The size-accounting options used at dispatch time. -/
structure SizeOptions where
  preload_size : Int
  overload_size : Int
  round_size : Int
deriving DecidableEq

/-- Modelled from the spec (§4.1, size accounting performed in
file_entry.c/dispatch.c, not under src/): effective size =
raw + overload, rounded up to the next multiple of `round_size` when
`round_size` >= 2. -/
def effective_size (o : SizeOptions) (sz : Int) : Int :=
  let e := sz + o.overload_size
  if 2 ≤ o.round_size then ((e + o.round_size - 1) / o.round_size) * o.round_size
  else e

/-- Modelled from the spec (§4.3 step 4): the index of the partition with
the smallest `current_size`, smallest index on ties. -/
def least_loaded_idx : List Partition → Nat
  | [] => 0
  | [_] => 0
  | p :: rest =>
    let j := least_loaded_idx rest
    if (rest.getD j { size := 0, count := 0 }).size < p.size then j + 1 else 0

/-- Add one entry of effective size `e` to the partition at index `i`. -/
def add_to_partition_at : List Partition → Nat → Int → List Partition
  | [], _, _ => []
  | p :: rest, 0, e => { size := p.size + e, count := p.count + 1 } :: rest
  | p :: rest, i + 1, e => p :: add_to_partition_at rest i e

/-- Least-loaded placement of one entry of effective size `e`. -/
def dispatch_one (parts : List Partition) (e : Int) : List Partition :=
  add_to_partition_at parts (least_loaded_idx parts) e

/-- Modelled from the spec: `dispatch_file_entry_p_by_size` (dispatch.c,
not under src/) walks the sorted entry array and places each entry with
raw size > 0 into the least-loaded partition (§4.3 steps 1-4; entries of
set B, raw size 0, are left to the second pass).  Besides the updated
partitions it returns the entries it placed, in placement order. -/
def dispatch_file_entry_p_by_size (o : SizeOptions) :
    List FileEntry → List Partition → List Partition × List FileEntry
  | [], parts => (parts, [])
  | f :: rest, parts =>
    if 0 < f.size then
      let r := dispatch_file_entry_p_by_size o rest
        (dispatch_one parts (effective_size o f.size))
      (r.1, f :: r.2)
    else dispatch_file_entry_p_by_size o rest parts

/-- Modelled from the spec: `dispatch_empty_file_entries` (dispatch.c,
not under src/) makes a second pass over the entry list and places each
entry with raw size == 0 by the same least-loaded rule (§4.3 step 5).
Also returns the entries it placed, in placement order. -/
def dispatch_empty_file_entries (o : SizeOptions) :
    List FileEntry → List Partition → List Partition × List FileEntry
  | [], parts => (parts, [])
  | f :: rest, parts =>
    if f.size = 0 then
      let r := dispatch_empty_file_entries o rest
        (dispatch_one parts (effective_size o f.size))
      (r.1, f :: r.2)
    else dispatch_empty_file_entries o rest parts

/-- Modelled from the spec: `add_partitions` (partition.c, not under
src/) creates `k` partitions, each initialized with
`current_size = preload_size` and `current_count = 0` (§4.3 step 3). -/
def add_partitions (k : Nat) (o : SizeOptions) : List Partition :=
  List.replicate k { size := o.preload_size, count := 0 }

/-- Stable insertion step for the descending sort. -/
def insert_desc (o : SizeOptions) (f : FileEntry) :
    List FileEntry → List FileEntry
  | [] => [f]
  | g :: rest =>
    if effective_size o g.size ≤ effective_size o f.size then f :: g :: rest
    else g :: insert_desc o f rest

/-- Modelled from the spec: the `qsort` of `main` (fpart.c:626) with
comparator `sort_file_entry_p` (file_entry.c, not under src/) — sort the
whole entry array by effective size descending, with stable tie-break by
insertion order (§4.3 step 2). -/
def sort_file_entry_p (o : SizeOptions) : List FileEntry → List FileEntry
  | [] => []
  | f :: rest => insert_desc o f (sort_file_entry_p o rest)

/-- The fixed-N branch of `main` (fpart.c:608-669): materialize and sort
the entries, create `num_parts` partitions, dispatch sized entries from
the sorted array, then re-dispatch empty entries by a second pass over
the entry list.  Returns the final partitions and the concatenated
placement trace (the entries in the order in which they were placed). -/
def main_fixed_n (o : SizeOptions) (entries : List FileEntry) (k : Nat) :
    List Partition × List FileEntry :=
  let sorted := sort_file_entry_p o entries
  let parts0 := add_partitions k o
  let r1 := dispatch_file_entry_p_by_size o sorted parts0
  let r2 := dispatch_empty_file_entries o entries r1.1
  (r2.1, r1.2 ++ r2.2)

/-! ## Helper lemmas -/

lemma reject_usage (ingest : Option (List Char) → List (List Char) → Option Nat)
    (o : ProgramOptions) (args : List (List Char))
    (h : options_consistency_reject o = true) :
    main_model ingest o args = RunOutcome.usageExit1 := by
  simp [main_model, h]

lemma dispatch_sized_trace (o : SizeOptions) (l : List FileEntry) :
    ∀ parts : List Partition,
    (dispatch_file_entry_p_by_size o l parts).2 =
      l.filter (fun f => decide (0 < f.size)) := by
  induction l with
  | nil => intro parts; simp [dispatch_file_entry_p_by_size]
  | cons f rest ih =>
    intro parts
    by_cases h : 0 < f.size
    · simp [dispatch_file_entry_p_by_size, h, ih, List.filter_cons]
    · simp [dispatch_file_entry_p_by_size, h, ih, List.filter_cons]

lemma dispatch_empty_trace (o : SizeOptions) (l : List FileEntry) :
    ∀ parts : List Partition,
    (dispatch_empty_file_entries o l parts).2 =
      l.filter (fun f => decide (f.size = 0)) := by
  induction l with
  | nil => intro parts; simp [dispatch_empty_file_entries]
  | cons f rest ih =>
    intro parts
    by_cases h : f.size = 0
    · simp [dispatch_empty_file_entries, h, ih, List.filter_cons]
    · simp [dispatch_empty_file_entries, h, ih, List.filter_cons]

lemma chop_replicate : ∀ (k : Nat) (r : List Char), r.head? ≠ some '/' →
    chopSlashes (List.replicate (k + 1) '/' ++ r) = '/' :: r := by
  intro k
  induction k with
  | zero =>
    intro r h
    cases r with
    | nil => simp [chopSlashes]
    | cons c r' =>
      have hc : c ≠ '/' := fun hc => h (by simp [hc])
      simp [List.replicate, chopSlashes, hc]
  | succ n ih =>
    intro r h
    have e1 : List.replicate (n + 1 + 1) '/' ++ r =
        '/' :: ('/' :: (List.replicate n '/' ++ r)) := by
      simp [List.replicate_succ]
    have e2 : ('/' : Char) :: (List.replicate n '/' ++ r) =
        List.replicate (n + 1) '/' ++ r := by
      simp [List.replicate_succ]
    rw [e1]
    have e3 : chopSlashes ('/' :: '/' :: (List.replicate n '/' ++ r)) =
        chopSlashes ('/' :: (List.replicate n '/' ++ r)) := by
      simp [chopSlashes]
    rw [e3, e2]
    exact ih r h

/-! ## Claim theorems -/

/-- C1 (counterexample): the claim "no entry with a negative size is
added" fails: the line "-5 foo" parses under `"%lld %[^\n]"` with size
-5, and `handle_argument` adds an entry of size -5. -/
theorem arb_negative_size_counterexample :
    sscanf_lld_path ['-','5',' ','f','o','o'] = some (-5, ['f','o','o']) ∧
    handle_argument_arb ['-','5',' ','f','o','o'] 0 [] =
      (0, 1, [{ path := ['f','o','o'], size := -5 }]) ∧
    (-5 : Int) < 0 :=
  ⟨by decide, by decide, by decide⟩

/-- C1 (amended): with `-a`, every line on which the two-conversion
`sscanf` parse succeeds — including lines whose size field is negative,
since `%lld` accepts a leading minus sign — is accepted: an entry
carrying exactly the parsed size and path is appended and the total file
count is incremented. -/
theorem arb_parse_adds_entry :
    ∀ (line : List Char) (v : Int) (p : List Char) (t : Nat)
      (es : List FileEntry),
    sscanf_lld_path line = some (v, p) →
    handle_argument_arb line t es =
      (0, t + 1, es ++ [{ path := p, size := v }]) := by
  intro line v p t es h
  simp [handle_argument_arb, h, handle_file_entry]

/-- C1 witness: the amended theorem evaluated on the line "-5 foo". -/
theorem arb_parse_adds_entry_witness :
    handle_argument_arb ['-','5',' ','f','o','o'] 0 [] =
      (0, 1, [{ path := ['f','o','o'], size := -5 }]) :=
  arb_parse_adds_entry ['-','5',' ','f','o','o'] (-5) ['f','o','o'] 0 []
    (by decide)

/-- C2 (counterexample): the claim "every run that provides more than one
of -n, -f, -s is rejected" fails: a run with `-f 5 -s 100` provides two
selectors yet is not rejected by the consistency checks. -/
theorem selector_check_counterexample :
    selectors_provided ⟨none, some 5, some 100, false, none, none, none⟩ = 2 ∧
    main_model (fun _ _ => some 0)
      ⟨none, some 5, some 100, false, none, none, none⟩ [] ≠
      RunOutcome.usageExit1 :=
  ⟨by decide, by decide⟩

/-- C2 (amended): a run providing none of `-n`, `-f`, `-s` is rejected
with usage and exit code 1 before any ingestion work, and so is a run
providing `-n` together with `-f`, `-s` or `-L`; but `-f` and `-s` may be
combined.  Quantification over the ingestion function shows the rejection
happens before any filesystem work. -/
theorem selector_checks :
    ∀ (ingest : Option (List Char) → List (List Char) → Option Nat)
      (o : ProgramOptions) (args : List (List Char)),
    (selectors_provided o = 0 →
      main_model ingest o args = RunOutcome.usageExit1) ∧
    (o.num_parts ≠ none →
      (o.max_entries ≠ none ∨ o.max_size ≠ none ∨ o.live_mode = true) →
      main_model ingest o args = RunOutcome.usageExit1) := by
  intro ingest o args
  rcases o with ⟨np, me, ms, lm, ph, qh, inf⟩
  constructor
  · intro h
    apply reject_usage
    cases np <;> cases me <;> cases ms <;>
      simp [selectors_provided] at h
    simp [options_consistency_reject]
  · intro h1 h2
    apply reject_usage
    cases np with
    | none => simp at h1
    | some n =>
      rcases h2 with h2 | h2 | h2
      · cases me with
        | none => simp at h2
        | some m => simp [options_consistency_reject]
      · cases ms with
        | none => simp at h2
        | some m => simp [options_consistency_reject]
      · simp at h2
        simp [options_consistency_reject, h2]

/-- C2 witness: the amended theorem evaluated on a run with no selector
and on a run with `-n 2 -f 3`. -/
theorem selector_checks_witness :
    main_model (fun _ _ => some 0)
      ⟨none, none, none, false, none, none, none⟩ [] =
      RunOutcome.usageExit1 ∧
    main_model (fun _ _ => some 0)
      ⟨some 2, some 3, none, false, none, none, none⟩ [] =
      RunOutcome.usageExit1 :=
  ⟨(selector_checks _ _ _).1 (by decide),
   (selector_checks _ _ _).2 (by decide) (Or.inl (by decide))⟩

/-- C3 (counterexample): the claim "-p accepts every P >= 0" fails at
P = 0: the argument "0" converts fully to 0, yet option parsing rejects
it (usage and exit code 1). -/
theorem preload_zero_counterexample :
    scan_lld ['0'] = some (0, []) ∧ parse_opt_p ['0'] = none :=
  ⟨by decide, by decide⟩

/-- C3 (amended): `-p` accepts exactly the positive values: an argument
that `strtoll` converts fully to P is accepted with
`preload_size = P` iff P >= 1, and rejected with usage and exit code 1
when P <= 0 (including P = 0). -/
theorem preload_accepts_positive :
    ∀ (s : List Char) (v : Int), scan_lld s = some (v, []) →
    (1 ≤ v → parse_opt_p s = some v) ∧ (v ≤ 0 → parse_opt_p s = none) := by
  intro s v h
  constructor
  · intro hv
    have hv0 : ¬ v ≤ 0 := by omega
    simp [parse_opt_p, h, hv0]
  · intro hv
    simp [parse_opt_p, h, hv]

/-- C3 witness: the amended theorem evaluated on the arguments "7" and
"0". -/
theorem preload_accepts_positive_witness :
    parse_opt_p ['7'] = some 7 ∧ parse_opt_p ['0'] = none :=
  ⟨(preload_accepts_positive ['7'] 7 (by decide)).1 (by decide),
   (preload_accepts_positive ['0'] 0 (by decide)).2 (by decide)⟩

/-- C4 (counterexample): the claim "-q accepts every Q >= 0" fails at
Q = 0: the argument "0" converts fully to 0, yet option parsing rejects
it (usage and exit code 1). -/
theorem overload_zero_counterexample :
    scan_lld ['0'] = some (0, []) ∧ parse_opt_q ['0'] = none :=
  ⟨by decide, by decide⟩

/-- C4 (amended): `-q` accepts exactly the positive values: an argument
that `strtoll` converts fully to Q is accepted with
`overload_size = Q` iff Q >= 1, and rejected with usage and exit code 1
when Q <= 0 (including Q = 0). -/
theorem overload_accepts_positive :
    ∀ (s : List Char) (v : Int), scan_lld s = some (v, []) →
    (1 ≤ v → parse_opt_q s = some v) ∧ (v ≤ 0 → parse_opt_q s = none) := by
  intro s v h
  constructor
  · intro hv
    have hv0 : ¬ v ≤ 0 := by omega
    simp [parse_opt_q, h, hv0]
  · intro hv
    simp [parse_opt_q, h, hv]

/-- C4 witness: the amended theorem evaluated on the arguments "9" and
"0". -/
theorem overload_accepts_positive_witness :
    parse_opt_q ['9'] = some 9 ∧ parse_opt_q ['0'] = none :=
  ⟨(overload_accepts_positive ['9'] 9 (by decide)).1 (by decide),
   (overload_accepts_positive ['0'] 0 (by decide)).2 (by decide)⟩

/-- C5: with `-a`, every malformed line (one the `"%lld %[^\n]"` parse
does not fully match) is skipped: `handle_argument` returns 0, no entry
is added, the total file count is unchanged, and the read loop of `main`
continues with the subsequent lines. -/
theorem malformed_line_skipped :
    ∀ (line : List Char) (rest : List (List Char)) (t : Nat)
      (es : List FileEntry),
    sscanf_lld_path line = none →
    handle_argument_arb line t es = (0, t, es) ∧
    process_lines_arb (line :: rest) t es = process_lines_arb rest t es := by
  intro line rest t es h
  have h1 : handle_argument_arb line t es = (0, t, es) := by
    simp [handle_argument_arb, h]
  exact ⟨h1, by simp [process_lines_arb, h1]⟩

/-- C5 witness: the theorem evaluated on the malformed line "abc"
followed by the well-formed line "3 x". -/
theorem malformed_line_skipped_witness :
    handle_argument_arb ['a','b','c'] 2 [] = (0, 2, []) ∧
    process_lines_arb [['a','b','c'], ['3',' ','x']] 2 [] =
      process_lines_arb [['3',' ','x']] 2 [] :=
  malformed_line_skipped ['a','b','c'] [['3',' ','x']] 2 [] (by decide)

/-- C6: a run that is not in live mode, passes the option checks and
whose ingestion completes with a total entry count of zero reports the
count and exits with code 0, with no dispatch and no manifest emission
(quantification over the ingestion function is irrelevant here since its
result is fixed by hypothesis). -/
theorem empty_result_exit0 :
    ∀ (ingest : Option (List Char) → List (List Char) → Option Nat)
      (o : ProgramOptions) (args : List (List Char)),
    options_consistency_reject o = false →
    o.live_mode = false →
    ingest (force_stdin_default o.in_filename args.length) args = some 0 →
    main_model ingest o args = RunOutcome.successNoDispatch 0 := by
  intro ingest o args h1 h2 h3
  simp [main_model, h1, h3, h2]

/-- C6 witness: the theorem evaluated on a `-f 3` run whose ingestion
finds nothing. -/
theorem empty_result_exit0_witness :
    main_model (fun _ _ => some 0)
      ⟨none, some 3, none, false, none, none, none⟩ [] =
      RunOutcome.successNoDispatch 0 :=
  empty_result_exit0 _ _ _ (by decide) rfl rfl

/-- C7: in fixed-N mode dispatch is two-phase in a fixed order: the
placement trace of the fixed-N branch of `main` is exactly the entries
with raw size > 0 in sorted (effective-size descending) order, followed
by the entries with raw size == 0 in entry-list order, placed by a
separate second pass. -/
theorem fixed_n_two_phase_dispatch :
    ∀ (o : SizeOptions) (entries : List FileEntry) (k : Nat),
    (main_fixed_n o entries k).2 =
      (sort_file_entry_p o entries).filter (fun f => decide (0 < f.size)) ++
      entries.filter (fun f => decide (f.size = 0)) := by
  intro o entries k
  simp [main_fixed_n, dispatch_sized_trace, dispatch_empty_trace]

/-- C8: `handle_argument` path normalization — any run of two or more
trailing slashes collapses to a single trailing slash, a single trailing
slash is preserved (both are the k-indexed statement, which appends k+1
trailing slashes to a path not itself ending in '/'), and a
single-character path is left unchanged. -/
theorem trailing_slash_normalization :
    (∀ (s : List Char) (k : Nat), s.reverse.head? ≠ some '/' →
      remove_ending_slashes (s ++ List.replicate (k + 1) '/') = s ++ ['/']) ∧
    (∀ c : Char, remove_ending_slashes [c] = [c]) := by
  constructor
  · intro s k h
    unfold remove_ending_slashes
    rw [List.reverse_append, List.reverse_replicate,
      chop_replicate k s.reverse h]
    simp
  · intro c
    simp [remove_ending_slashes, chopSlashes]

/-- C8 witness: the theorem evaluated on "ab///" (collapsing to "ab/")
and on the single-character path "/". -/
theorem trailing_slash_normalization_witness :
    remove_ending_slashes (['a','b'] ++ List.replicate 3 '/') =
      ['a','b'] ++ ['/'] ∧
    remove_ending_slashes ['/'] = ['/'] :=
  ⟨trailing_slash_normalization.1 ['a','b'] 2 (by decide),
   trailing_slash_normalization.2 '/'⟩

/-- C9: when neither `-i` nor a positional argument is given, `main`
forces the input filename to "-", which is exactly the filename produced
by passing `-i -`, and that filename selects stdin as the input
source. -/
theorem stdin_default_equiv :
    force_stdin_default none 0 =
      force_stdin_default (apply_opt_i none ['-']) 0 ∧
    select_input_source (force_stdin_default none 0) = InputSource.stdin :=
  ⟨by decide, by decide⟩

/-- C10: in path mode, an argument that is empty (or becomes empty after
trailing-slash normalization) is skipped: `handle_argument` returns 0, no
entry is added and the total file count is unchanged; quantification over
the crawl function shows no crawl is attempted. -/
theorem empty_path_skipped :
    ∀ (crawl : List Char → Option (Nat × List FileEntry)) (arg : List Char)
      (t : Nat) (es : List FileEntry),
    remove_ending_slashes arg = [] →
    handle_argument_path crawl arg t es = (0, t, es) := by
  intro crawl arg t es h
  simp [handle_argument_path, h]

/-- C10 witness: the theorem evaluated on the empty argument, with a
crawl function that would fail if it were consulted. -/
theorem empty_path_skipped_witness :
    handle_argument_path (fun _ => (none : Option (Nat × List FileEntry)))
      [] 4 [] = (0, 4, []) :=
  empty_path_skipped _ [] 4 [] (by decide)

end Fpart
